import Mathlib

/-!
Verification of the AMM agent-simulation engine: a shallow embedding of the
simulator sources (`simulator/agent_base.py`, `simulator/trader.py`,
`simulator/market_maker.py`, `simulator/run_simulation.py`) together with
spec-modelled definitions for the parts of the system that live outside the
Python sources (the AMM contract `AMM.sol` and the metrics module
`simulator/metrics.py`, which are referenced but not present).

Conventions: Solidity `uint` quantities are `Nat`; Python `float` quantities
are `ℚ` (exact arithmetic); Python `int(x)` truncation toward zero is
`pyTrunc`; fallible code returns `Except String`.
-/

namespace Simulate

/-- Python `int(x)` applied to a number: truncation toward zero.
For a rational `q` with positive denominator, `q.num / q.den` using
integer division (which truncates toward zero) is exactly `int(q)`. -/
def pyTrunc (q : ℚ) : ℤ := q.num / (q.den : ℤ)

/-! ## Pool state and the external AMM contract

The live contract state visible through `getReserves()`. -/

/-- Live ledger/pool state read through the AMM contract interface:
`getReserves() -> (uint, uint)`. -/
structure Chain where
  reserveA : Nat
  reserveB : Nat
  deriving Repr, DecidableEq

/-- Fee in basis points charged by the AMM (`AMM.sol` exposes `fee()`;
deploy.py prints `fee / 100` as a percent). The contract source is not in
the repository; 30 bps (0.3%) is the constant-product default. -/
def feeBps : Nat := 30

/-- Modelled from the spec: `quoteOut(amountIn, reserveIn, reserveOut)`,
the AMM contract's `getAmountOut` (the contract source `AMM.sol` is absent
from the repository; only its callers are present). Per §4.1 of the spec it
is the constant-product formula with the fee deducted from the input and
fails with `InvalidReserves` when either reserve is zero. -/
def getAmountOut (amountIn reserveIn reserveOut : Nat) : Except String Nat :=
  if reserveIn = 0 ∨ reserveOut = 0 then
    .error "InvalidReserves"
  else
    let amountInWithFee := amountIn * (10000 - feeBps)
    .ok (amountInWithFee * reserveOut / (reserveIn * 10000 + amountInWithFee))

/-- Embeds `Trader.get_pool_price` (trader.py:64-76): reads live reserves and
returns `reserve_a / reserve_b`, or `0.0` when `reserve_b == 0`. -/
def getPoolPrice (c : Chain) : ℚ :=
  if c.reserveB = 0 then 0 else (c.reserveA : ℚ) / (c.reserveB : ℚ)

/-- Embeds `Trader.calculate_swap_output` (trader.py:78-95): reads live reserves
and quotes the swap through the contract's `getAmountOut`; any failure is
caught and turned into `0`. -/
def calculateSwapOutput (c : Chain) (amountIn : Nat) (tokenInIsA : Bool) : Nat :=
  let quoted :=
    if tokenInIsA then getAmountOut amountIn c.reserveA c.reserveB
    else getAmountOut amountIn c.reserveB c.reserveA
  match quoted with
  | .ok v => v
  | .error _ => 0

/-! ## Momentum (trader.py, `MomentumTrader`) -/

/-- The Python slice `xs[-n:]`: the last `n` elements, except that `xs[-0:]`
is the whole list. -/
def lastSlice (n : Nat) (xs : List ℚ) : List ℚ :=
  if n = 0 then xs else xs.drop (xs.length - n)

/-- Embeds `MomentumTrader.calculate_momentum` (trader.py:264-276): `0.0` when the
history holds fewer than `lookback_periods` samples; otherwise
`(newest - oldest) / oldest` over the last `lookback_periods` samples,
`0.0` when that window's oldest sample is `0`. -/
def calculateMomentum (lookbackPeriods : Nat) (priceHistory : List ℚ) : ℚ :=
  if priceHistory.length < lookbackPeriods then 0
  else
    let recentPrices := lastSlice lookbackPeriods priceHistory
    if recentPrices.headD 0 = 0 then 0
    else (recentPrices.getLastD 0 - recentPrices.headD 0) / recentPrices.headD 0

/-- Embeds `MomentumTrader.should_act` (trader.py:278-293), with the live pool
price and the random draw made explicit arguments: append the current
price to the history, truncate to the last `lookback_periods` entries when
the history exceeds `2 * lookback_periods`, then act when
`|momentum| > momentum_threshold` or the random draw is below
`trade_frequency`. Returns the decision and the updated history. -/
def momentumShouldAct (lookbackPeriods : Nat) (momentumThreshold tradeFrequency : ℚ)
    (priceHistory : List ℚ) (currentPrice randDraw : ℚ) : Bool × List ℚ :=
  let hist := priceHistory ++ [currentPrice]
  let hist := if hist.length > lookbackPeriods * 2 then lastSlice lookbackPeriods hist else hist
  let momentum := calculateMomentum lookbackPeriods hist
  ((|momentum| > momentumThreshold) || (randDraw < tradeFrequency), hist)

/-! ## Impermanent loss (market_maker.py, `MarketMaker`) -/

/-- The core of `MarketMaker.calculate_impermanent_loss`
(market_maker.py:218-238), with the stored initial reserves and the live
reserves as explicit arguments: `0.0` when any of the four reserves is
zero, otherwise `2·√r/(1+r) − 1` with
`r = (currentA/currentB) / (initialA/initialB)` (the code additionally
re-checks `initial_ratio == 0`). -/
noncomputable def calculateImpermanentLoss (initialA initialB currentA currentB : Nat) : ℝ :=
  if initialA = 0 ∨ initialB = 0 ∨ currentA = 0 ∨ currentB = 0 then 0
  else
    let initialRatio : ℝ := (initialA : ℝ) / (initialB : ℝ)
    let currentRatio : ℝ := (currentA : ℝ) / (currentB : ℝ)
    if initialRatio = 0 then 0
    else
      let ratioChange := currentRatio / initialRatio
      2 * Real.sqrt ratioChange / (1 + ratioChange) - 1

/-- Embeds `MarketMaker.calculate_impermanent_loss` including the guard on
`self.initial_reserves is None` (market_maker.py:215-216). -/
noncomputable def calculateImpermanentLossOpt
    (initialReserves : Option (Nat × Nat)) (currentA currentB : Nat) : ℝ :=
  match initialReserves with
  | none => 0
  | some (ia, ib) => calculateImpermanentLoss ia ib currentA currentB

/-! ## Optimal liquidity amounts (market_maker.py, `MarketMaker`) -/

/-- Embeds `MarketMaker.calculate_optimal_liquidity_amounts`
(market_maker.py:103-149), with the live reserves as explicit arguments.
Every Python float division is modelled with an explicit zero-denominator
check returning `ZeroDivisionError`, in the order the divisions occur.
When either reserve is zero (empty pool): apply the target ratio to the
available balances scaled by `max_liquidity_ratio` and clamp each amount
to availability.  Otherwise: try to use all of token A, then all of token
B, then scale both down proportionally. -/
def calculateOptimalLiquidityAmounts (reserveA reserveB : Nat)
    (availableA availableB : Nat) (targetRatio maxLiquidityRatio : ℚ) :
    Except String (ℤ × ℤ) :=
  if reserveA = 0 ∨ reserveB = 0 then
    if (1 - targetRatio) = 0 then .error "ZeroDivisionError"
    else
      let totalValueA : ℚ := (availableA : ℚ) + (availableB : ℚ) * targetRatio / (1 - targetRatio)
      let amountA : ℤ := pyTrunc (totalValueA * targetRatio * maxLiquidityRatio)
      if targetRatio = 0 then .error "ZeroDivisionError"
      else
        let amountB : ℤ := pyTrunc ((amountA : ℚ) * (1 - targetRatio) / targetRatio)
        .ok (min amountA (availableA : ℤ), min amountB (availableB : ℤ))
  else
    let poolRatio : ℚ := if reserveB > 0 then (reserveA : ℚ) / (reserveB : ℚ) else 1
    let amountA : ℤ := pyTrunc ((availableA : ℚ) * maxLiquidityRatio)
    if poolRatio = 0 then .error "ZeroDivisionError"
    else
      let requiredB : ℤ := pyTrunc ((amountA : ℚ) / poolRatio)
      if requiredB ≤ (availableB : ℤ) then .ok (amountA, requiredB)
      else
        let amountB : ℤ := pyTrunc ((availableB : ℚ) * maxLiquidityRatio)
        let requiredA : ℤ := pyTrunc ((amountB : ℚ) * poolRatio)
        if requiredA ≤ (availableA : ℤ) then .ok (requiredA, amountB)
        else if (requiredA : ℚ) = 0 ∨ (requiredB : ℚ) = 0 then .error "ZeroDivisionError"
        else
          let scaleFactor : ℚ :=
            min ((availableA : ℚ) / (requiredA : ℚ)) ((availableB : ℚ) / (requiredB : ℚ))
          .ok (pyTrunc ((requiredA : ℚ) * scaleFactor), pyTrunc ((requiredB : ℚ) * scaleFactor))

/-! ## Transaction accounting (agent_base.py, `AgentBase.send_transaction`) -/

/-- The per-agent transaction-accounting counters of `AgentBase`:
`self.nonce`, `self.transaction_count`, `self.total_gas_used`. -/
structure TxCounters where
  nonce : Nat
  transactionCount : Nat
  totalGasUsed : Nat
  deriving Repr, DecidableEq

/-- Embeds `AgentBase.send_transaction` (agent_base.py:116-157) as a transition on
the accounting counters.  The three external effects — signing/submission
(`send_raw_transaction`), waiting for the receipt (`wait_for_transaction_receipt`,
which can time out), and the receipt contents — are explicit arguments.
A receipt with `status == 0` raises `Exception("Transaction failed")`; the
outer `except` re-raises every failure.  The counters are incremented only
after a receipt with nonzero status; on every failure path the method
raises before touching them. -/
def sendTransaction (st : TxCounters)
    (submitResult : Except String String)
    (receiptResult : Except String (Nat × Nat)) :
    Except String String × TxCounters :=
  match submitResult with
  | .error e => (.error e, st)
  | .ok txHash =>
    match receiptResult with
    | .error e => (.error e, st)
    | .ok (status, gasUsed) =>
      if status = 0 then (.error "Transaction failed", st)
      else
        (.ok txHash,
         { nonce := st.nonce + 1,
           transactionCount := st.transactionCount + 1,
           totalGasUsed := st.totalGasUsed + gasUsed })


/-! ## Market snapshot and reports (run_simulation.py + spec-modelled metrics.py)

The metrics module `simulator/metrics.py` (class `MetricsCalculator`) is
imported by `run_simulation.py` but is not present in the repository; its
reads and computations are modelled from the spec below. -/

/-- Market snapshot: the immutable per-tick value assembled by the snapshot
provider (spec §3, `MarketSnapshot`). -/
structure MarketData where
  reserveA : Nat
  reserveB : Nat
  price : ℚ
  deriving Repr, DecidableEq

/-- Derived snapshot of a chain state: one read of the pool reserves plus
the derived price. -/
def marketOf (c : Chain) : MarketData :=
  { reserveA := c.reserveA, reserveB := c.reserveB,
    price := if c.reserveB = 0 then 0 else (c.reserveA : ℚ) / (c.reserveB : ℚ) }

/-- Modelled from the spec: `MetricsCalculator.get_current_market_state`
(metrics.py is absent from the repository). A single ledger read producing
the per-tick snapshot; the read is of the always-available kind. The
scheduler below is parameterized over the reader so that the fallible case
(`SnapshotUnavailable`, spec §7) is also covered. -/
def readMarketState (c : Chain) : Except String MarketData := .ok (marketOf c)

/-- One recorded action inside an `ActionReport` (an entry of
`actions_taken`). -/
structure ActionRec where
  kind : String
  amount : Nat
  deriving Repr, DecidableEq

/-- Per-agent per-tick `ActionReport`: the dictionary each strategy `step`
returns (`agent_id`, `agent_type`, `actions_taken`, optional `error`). -/
structure Report where
  agentId : String
  agentType : String
  actionsTaken : List ActionRec
  error : Option String
  deriving Repr, DecidableEq

/-- The mutable per-agent state owned by the agent object: the momentum
price history, the seeded random source, the wallet token balances, the LP
token balance, the market maker's stored initial reserves, and the
transaction-accounting counters of `AgentBase`. -/
structure AgentLocal where
  priceHistory : List ℚ
  rng : Nat
  balanceA : Nat
  balanceB : Nat
  lpBalance : Nat
  initialReserves : Option (Nat × Nat)
  counters : TxCounters
  deriving Repr, DecidableEq

/-- An agent in the scheduler's registry: an identifier plus the
`should_act`/`step` capability interface over the snapshot it is handed,
the live chain it can read through its contract handles, and its own local
state.  `stepF` returns the recorded actions, the optional `error` field of
the resulting report (every strategy `step` catches its own failures and
converts them into this field), the possibly-mutated chain, and the updated
local state. -/
structure Agent where
  agentId : String
  agentType : String
  localState : AgentLocal
  shouldActF : MarketData → Chain → AgentLocal → Bool × AgentLocal
  stepF : MarketData → Chain → AgentLocal → List ActionRec × Option String × Chain × AgentLocal

/-- The per-tick agent loop of `SimulationRunner.run_step`
(run_simulation.py:281-289): for each agent in registration order, evaluate
`should_act` on the shared snapshot (agents may also read the live chain),
and if it fires, run `step` and append the returned report.  Returns the
collected reports, the final chain, and the updated agent registry. -/
def agentsLoop (md : MarketData) : List Agent → Chain → List Report × Chain × List Agent
  | [], c => ([], c, [])
  | a :: rest, c =>
    let (act, s1) := a.shouldActF md c a.localState
    if act then
      let (acts, err, c1, s2) := a.stepF md c s1
      let report : Report := ⟨a.agentId, a.agentType, acts, err⟩
      let (rs, cF, agentsF) := agentsLoop md rest c1
      (report :: rs, cF, { a with localState := s2 } :: agentsF)
    else
      let (rs, cF, agentsF) := agentsLoop md rest c
      (rs, cF, { a with localState := s1 } :: agentsF)

/-- Instrumented variant of `agentsLoop` that additionally records, for
each agent evaluated, the snapshot value handed to it.  Its first three
components coincide with `agentsLoop` (proved below). -/
def agentsLoopSnap (md : MarketData) :
    List Agent → Chain → List Report × Chain × List Agent × List MarketData
  | [], c => ([], c, [], [])
  | a :: rest, c =>
    let (act, s1) := a.shouldActF md c a.localState
    if act then
      let (acts, err, c1, s2) := a.stepF md c s1
      let report : Report := ⟨a.agentId, a.agentType, acts, err⟩
      let (rs, cF, agentsF, mds) := agentsLoopSnap md rest c1
      (report :: rs, cF, { a with localState := s2 } :: agentsF, md :: mds)
    else
      let (rs, cF, agentsF, mds) := agentsLoopSnap md rest c
      (rs, cF, { a with localState := s1 } :: agentsF, md :: mds)

/-- Modelled from the spec: `MetricsCalculator.calculate_step_metrics`
(metrics.py is absent) — per §4.5, counts of actions, total volume this
tick, current price, and reserve ratio, plus the tick number. -/
structure StepMetrics where
  step : Nat
  actionCount : Nat
  totalVolume : Nat
  errorCount : Nat
  price : ℚ
  reserveRatio : ℚ
  deriving Repr, DecidableEq

/-- Modelled from the spec: the step-metrics computation over the tick's
action reports and snapshot (§4.5). -/
def calculateStepMetrics (step : Nat) (reports : List Report) (md : MarketData) : StepMetrics :=
  { step := step
    actionCount := (reports.map (fun r => r.actionsTaken.length)).sum
    totalVolume := (reports.map (fun r => (r.actionsTaken.map ActionRec.amount).sum)).sum
    errorCount := (reports.filter (fun r => r.error.isSome)).length
    price := md.price
    reserveRatio :=
      if (md.reserveA : ℚ) + (md.reserveB : ℚ) = 0 then 0
      else (md.reserveA : ℚ) / ((md.reserveA : ℚ) + (md.reserveB : ℚ)) }

/-- The per-tick record assembled by `SimulationRunner.run_step`
(run_simulation.py:306-317): tick number, snapshot, action reports, step
metrics (the wall-clock fields are not modelled). -/
structure StepResult where
  step : Nat
  marketData : MarketData
  reports : List Report
  stepMetrics : StepMetrics
  deriving Repr, DecidableEq

/-- Embeds `SimulationRunner.run_step` (run_simulation.py:271-321),
parameterized over the market-state reader `readM`: one market read
produces the snapshot shared by all agents this tick; the agent loop runs;
step metrics are computed; the tick record is assembled.  A failure of the
market read escapes (there is no handler around it in `run_step`). -/
def runStep (readM : Chain → Except String MarketData) (step : Nat)
    (agents : List Agent) (c : Chain) :
    Except String (StepResult × Chain × List Agent) :=
  match readM c with
  | .error e => .error e
  | .ok md =>
    let (reports, c1, agents1) := agentsLoop md agents c
    .ok ({ step := step, marketData := md, reports := reports,
           stepMetrics := calculateStepMetrics step reports md }, c1, agents1)

/-- The tick loop of `SimulationRunner.run_simulation`
(run_simulation.py:333-352): run `maxSteps` ticks starting at `step`.
`interruptAt = some k` models a `KeyboardInterrupt` arriving at the
boundary of tick `k`: the loop stops and the results so far are kept (the
code catches `KeyboardInterrupt` and proceeds to the final report).  Any
other exception escaping a tick is re-raised (`except Exception: raise`),
so it propagates as `.error`. -/
def runTicks (readM : Chain → Except String MarketData) (interruptAt : Option Nat) :
    Nat → Nat → List Agent → Chain → Except String (List StepResult × List Agent)
  | _, 0, agents, _ => .ok ([], agents)
  | step, n + 1, agents, c =>
    if interruptAt = some step then .ok ([], agents)
    else
      match runStep readM step agents c with
      | .error e => .error e
      | .ok (sr, c1, agents1) =>
        match runTicks readM interruptAt (step + 1) n agents1 c1 with
        | .error e => .error e
        | .ok (rest, agentsF) => .ok (sr :: rest, agentsF)

/-- Modelled from the spec: `MetricsCalculator.calculate_overall_metrics`
(metrics.py is absent) — run-level statistics; `simulationSteps` is the
count of tick records processed (§4.5). -/
structure OverallMetrics where
  simulationSteps : Nat
  cumulativeVolume : Nat
  deriving Repr, DecidableEq

/-- Modelled from the spec: the overall-metrics computation (§4.5). -/
def calculateOverallMetrics (results : List StepResult) : OverallMetrics :=
  { simulationSteps := results.length
    cumulativeVolume := (results.map (fun sr => sr.stepMetrics.totalVolume)).sum }

/-- The final run report of `SimulationRunner._generate_final_report`
(run_simulation.py:361-390): overall metrics, final per-agent performance
(here: the transaction-accounting counters), and the last 10 step results. -/
structure FinalReport where
  overallMetrics : OverallMetrics
  finalAgentPerformance : List (String × TxCounters)
  recentStepResults : List StepResult
  deriving Repr, DecidableEq

/-- Embeds `SimulationRunner._generate_final_report`
(run_simulation.py:361-390). -/
def generateFinalReport (results : List StepResult) (agents : List Agent) : FinalReport :=
  { overallMetrics := calculateOverallMetrics results
    finalAgentPerformance := agents.map (fun a => (a.agentId, a.localState.counters))
    recentStepResults := results.drop (results.length - 10) }

/-- Embeds `SimulationRunner.run_simulation` (run_simulation.py:323-359):
run the tick loop; a `KeyboardInterrupt` (modelled by `interruptAt`) stops
the loop but still produces the final report; any other exception is
re-raised and no final report is produced. -/
def runSimulation (readM : Chain → Except String MarketData) (interruptAt : Option Nat)
    (agents : List Agent) (c : Chain) (maxSteps : Nat) : Except String FinalReport :=
  match runTicks readM interruptAt 0 maxSteps agents c with
  | .error e => .error e
  | .ok (results, agentsF) => .ok (generateFinalReport results agentsF)


/-! ## Concrete strategies (trader.py, market_maker.py)

The per-agent seeded random source: `AgentBase.__init__` seeds
`random.Random(random_seed)` (agent_base.py:47-51).  Python's Mersenne
Twister is part of the standard library, external to the embedded fragment;
it is modelled from the spec ("a per-agent seeded random source threaded
through construction", §9) as a linear congruential generator: what the
claims need is that it is a deterministic function of the seed. -/

/-- Modelled from the spec: one step of the per-agent deterministic random
source. -/
def rngNext (s : Nat) : Nat := (1103515245 * s + 12345) % 2147483648

/-- Modelled from the spec: the `random()` value in `[0, 1)` at state `s`. -/
def rngFloat (s : Nat) : ℚ := (s : ℚ) / 2147483648

/-- Trading parameter `self.min_trade_size = 1000` (trader.py:53). -/
def minTradeSize : Nat := 1000

/-- Trading parameter `self.max_trade_size_ratio = 0.1` (trader.py:54). -/
def maxTradeSizeRatio : ℚ := 1 / 10

/-- Modelled from the spec: gas consumed by one confirmed ledger
transaction (receipts are produced by the excluded ledger collaborator). -/
def gasPerTx : Nat := 50000

/-- Modelled from the spec: the pool update performed by the external
ledger when a swap of `amountIn` (fee included) for `out` executes. -/
def applySwap (c : Chain) (amountIn : Nat) (tokenInIsA : Bool) (out : Nat) : Chain :=
  if tokenInIsA then { reserveA := c.reserveA + amountIn, reserveB := c.reserveB - out }
  else { reserveA := c.reserveA - out, reserveB := c.reserveB + amountIn }

/-- Embeds `Trader.execute_swap` (trader.py:104-156): quote the expected
output via `calculate_swap_output`, approve and submit (two transactions
through `send_transaction`), and log the trade.  The excluded ledger is
modelled as confirming the swap exactly when the agent's input balance
covers `amountIn`; on any failure the method catches and returns `none`
(no transaction hash), leaving pool and balances unchanged. -/
def executeSwap (c : Chain) (s : AgentLocal) (amountIn : Nat) (tokenInIsA : Bool) :
    Option Nat × Chain × AgentLocal :=
  let out := calculateSwapOutput c amountIn tokenInIsA
  let balIn := if tokenInIsA then s.balanceA else s.balanceB
  if amountIn ≤ balIn then
    let c1 := applySwap c amountIn tokenInIsA out
    let s1 :=
      { s with
        balanceA := if tokenInIsA then s.balanceA - amountIn else s.balanceA + out
        balanceB := if tokenInIsA then s.balanceB + out else s.balanceB - amountIn
        counters :=
          { nonce := s.counters.nonce + 2
            transactionCount := s.counters.transactionCount + 2
            totalGasUsed := s.counters.totalGasUsed + 2 * gasPerTx } }
    (some s.counters.nonce, c1, s1)
  else
    (none, c, s)

/-- Embeds `RandomTrader.should_act` (trader.py:187-189): one random draw
against `trade_frequency`. -/
def randomTraderShouldAct (tradeFrequency : ℚ) :
    MarketData → Chain → AgentLocal → Bool × AgentLocal :=
  fun _ _ s =>
    let r := rngNext s.rng
    (rngFloat r < tradeFrequency, { s with rng := r })

/-- Embeds `RandomTrader.step` (trader.py:191-234): gather the tokens whose
balance exceeds the minimum trade size, pick one at random, draw a random
amount in `[min_trade_size, balance * max_trade_size_ratio]`, and swap it.
`random.randint` raises `ValueError` when the upper bound is below the
lower bound; that failure is caught by the surrounding `except` and
recorded in the report's `error` field. -/
def randomTraderStep :
    MarketData → Chain → AgentLocal → List ActionRec × Option String × Chain × AgentLocal :=
  fun _ c s =>
    let tradeable : List (Bool × Nat) :=
      (if s.balanceA > minTradeSize then [(true, s.balanceA)] else []) ++
      (if s.balanceB > minTradeSize then [(false, s.balanceB)] else [])
    if tradeable.isEmpty then ([], none, c, s)
    else
      let r1 := rngNext s.rng
      let (tokenInIsA, balance) := tradeable.getD (r1 % tradeable.length) (true, 0)
      let maxTradeAmount := (pyTrunc ((balance : ℚ) * maxTradeSizeRatio)).toNat
      if maxTradeAmount < minTradeSize then
        ([], some "ValueError: empty range for randrange", c, { s with rng := r1 })
      else
        let r2 := rngNext r1
        let tradeAmount := minTradeSize + r2 % (maxTradeAmount - minTradeSize + 1)
        match executeSwap c { s with rng := r2 } tradeAmount tokenInIsA with
        | (some _, c1, s1) => ([⟨"random_swap", tradeAmount⟩], none, c1, s1)
        | (none, c1, s1) => ([], none, c1, s1)

/-- Embeds `MomentumTrader.should_act` (trader.py:278-293) as the registry
capability: append the live pool price to the history, truncate, and act
when `|momentum| > momentum_threshold` or — only evaluated otherwise,
since Python `or` short-circuits — a random draw is below
`trade_frequency`. -/
def momentumTraderShouldAct (lookbackPeriods : Nat) (momentumThreshold tradeFrequency : ℚ) :
    MarketData → Chain → AgentLocal → Bool × AgentLocal :=
  fun _ c s =>
    let hist := s.priceHistory ++ [getPoolPrice c]
    let hist := if hist.length > lookbackPeriods * 2 then lastSlice lookbackPeriods hist else hist
    if |calculateMomentum lookbackPeriods hist| > momentumThreshold then
      (true, { s with priceHistory := hist })
    else
      let r := rngNext s.rng
      (rngFloat r < tradeFrequency, { s with priceHistory := hist, rng := r })

/-- Embeds `MomentumTrader.step` (trader.py:295-348): beyond-threshold
positive momentum buys token A with a fraction of the token-B balance;
beyond-threshold negative momentum sells a fraction of the token-A
balance; otherwise no trade. -/
def momentumTraderStep (lookbackPeriods : Nat) (momentumThreshold : ℚ) :
    MarketData → Chain → AgentLocal → List ActionRec × Option String × Chain × AgentLocal :=
  fun _ c s =>
    let momentum := calculateMomentum lookbackPeriods s.priceHistory
    if momentum > momentumThreshold ∧ s.balanceB > minTradeSize then
      let tradeAmount := (pyTrunc ((s.balanceB : ℚ) * maxTradeSizeRatio)).toNat
      match executeSwap c s tradeAmount false with
      | (some _, c1, s1) => ([⟨"momentum_buy_a", tradeAmount⟩], none, c1, s1)
      | (none, c1, s1) => ([], none, c1, s1)
    else if momentum < -momentumThreshold ∧ s.balanceA > minTradeSize then
      let tradeAmount := (pyTrunc ((s.balanceA : ℚ) * maxTradeSizeRatio)).toNat
      match executeSwap c s tradeAmount true with
      | (some _, c1, s1) => ([⟨"momentum_sell_a", tradeAmount⟩], none, c1, s1)
      | (none, c1, s1) => ([], none, c1, s1)
    else ([], none, c, s)

/-- Embeds `MarketMaker.should_rebalance` (market_maker.py:240-254): false
when either live reserve is zero; otherwise true when the current reserve
ratio deviates from the target by more than the threshold. -/
def shouldRebalance (c : Chain) (targetRatio rebalanceThreshold : ℚ) : Bool :=
  if c.reserveA = 0 ∨ c.reserveB = 0 then false
  else
    let currentRatio := (c.reserveA : ℚ) / ((c.reserveA : ℚ) + (c.reserveB : ℚ))
    |currentRatio - targetRatio| > rebalanceThreshold

/-- Strategy parameter `self.max_liquidity_ratio = 0.9` (market_maker.py:79). -/
def maxLiquidityRatioDefault : ℚ := 9 / 10

/-- Embeds `MarketMaker.should_act` (market_maker.py:256-272): act when
holding tokens with no LP position, or when rebalancing is needed, or on a
10% random draw. -/
def marketMakerShouldAct (targetRatio rebalanceThreshold : ℚ) :
    MarketData → Chain → AgentLocal → Bool × AgentLocal :=
  fun _ c s =>
    if s.lpBalance = 0 ∧ (s.balanceA > 0 ∨ s.balanceB > 0) then (true, s)
    else if shouldRebalance c targetRatio rebalanceThreshold then (true, s)
    else
      let r := rngNext s.rng
      (rngFloat r < 1 / 10, { s with rng := r })

/-- Modelled from the spec: the external ledger executing `addLiquidity`
(the contract source is absent; the spec delegates the operation to the
excluded ledger collaborator).  Confirms when the balances cover the
amounts; reserves grow by the amounts, the wallet shrinks, LP tokens are
minted (the mint formula belongs to the excluded contract; the A-amount is
used), and three transactions (two approvals and the add) are accounted. -/
def applyAddLiquidity (c : Chain) (s : AgentLocal) (amountA amountB : Nat) :
    Option Nat × Chain × AgentLocal :=
  if amountA ≤ s.balanceA ∧ amountB ≤ s.balanceB then
    let c1 : Chain := { reserveA := c.reserveA + amountA, reserveB := c.reserveB + amountB }
    let s1 :=
      { s with
        balanceA := s.balanceA - amountA
        balanceB := s.balanceB - amountB
        lpBalance := s.lpBalance + amountA
        initialReserves :=
          match s.initialReserves with
          | none => some (c1.reserveA, c1.reserveB)
          | some r => some r
        counters :=
          { nonce := s.counters.nonce + 3
            transactionCount := s.counters.transactionCount + 3
            totalGasUsed := s.counters.totalGasUsed + 3 * gasPerTx } }
    (some s.counters.nonce, c1, s1)
  else (none, c, s)

/-- Modelled from the spec: the external ledger executing
`removeLiquidity` of `lpAmount` LP tokens (one transaction); the withdrawn
amounts belong to the excluded contract and are modelled as zero-sized
here — the spec's open question notes the rebalance leg never re-adds
within the tick, and no claim depends on the withdrawn amounts. -/
def applyRemoveLiquidity (c : Chain) (s : AgentLocal) (lpAmount : Nat) :
    Option Nat × Chain × AgentLocal :=
  if lpAmount ≤ s.lpBalance then
    let s1 :=
      { s with
        lpBalance := s.lpBalance - lpAmount
        counters :=
          { nonce := s.counters.nonce + 1
            transactionCount := s.counters.transactionCount + 1
            totalGasUsed := s.counters.totalGasUsed + gasPerTx } }
    (some s.counters.nonce, c, s1)
  else (none, c, s)

/-- Embeds `MarketMaker.step` (market_maker.py:274-332): with tokens but no
LP position, compute the optimal liquidity amounts and add liquidity;
otherwise, when rebalancing is needed, remove 10% of the LP position.  A
`ZeroDivisionError` escaping `calculate_optimal_liquidity_amounts` is
caught by the surrounding `except` and recorded as the report's `error`. -/
def marketMakerStep (targetRatio rebalanceThreshold : ℚ) :
    MarketData → Chain → AgentLocal → List ActionRec × Option String × Chain × AgentLocal :=
  fun _ c s =>
    if s.lpBalance = 0 ∧ (s.balanceA > 0 ∨ s.balanceB > 0) then
      match calculateOptimalLiquidityAmounts c.reserveA c.reserveB s.balanceA s.balanceB
          targetRatio maxLiquidityRatioDefault with
      | .error e => ([], some e, c, s)
      | .ok (amountA, amountB) =>
        if 0 < amountA ∧ 0 < amountB then
          match applyAddLiquidity c s amountA.toNat amountB.toNat with
          | (some _, c1, s1) => ([⟨"add_initial_liquidity", amountA.toNat⟩], none, c1, s1)
          | (none, c1, s1) => ([], none, c1, s1)
        else ([], none, c, s)
    else if shouldRebalance c targetRatio rebalanceThreshold then
      let rebalanceAmount := (pyTrunc ((s.lpBalance : ℚ) * (1 / 10))).toNat
      if 0 < rebalanceAmount then
        match applyRemoveLiquidity c s rebalanceAmount with
        | (some _, c1, s1) => ([⟨"rebalance_remove", rebalanceAmount⟩], none, c1, s1)
        | (none, c1, s1) => ([], none, c1, s1)
      else ([], none, c, s)
    else ([], none, c, s)

/-- Embeds `ArbitrageTrader.find_arbitrage_opportunity` (trader.py:369-408):
simulate an A→B→A round trip with 10% of the token-A balance through the
same pool; report it when the profit fraction exceeds the threshold. -/
def findArbitrageOpportunity (minProfitThreshold : ℚ) (c : Chain) (s : AgentLocal) :
    Option (Nat × ℤ × ℚ) :=
  if s.balanceA > minTradeSize then
    let testAmount := (pyTrunc ((s.balanceA : ℚ) * (1 / 10))).toNat
    let bReceived := calculateSwapOutput c testAmount true
    if bReceived > 0 then
      let aReceived := calculateSwapOutput c bReceived false
      let profit : ℤ := (aReceived : ℤ) - (testAmount : ℤ)
      let profitPercentage : ℚ := if testAmount > 0 then (profit : ℚ) / (testAmount : ℚ) else 0
      if profitPercentage > minProfitThreshold then some (testAmount, profit, profitPercentage)
      else none
    else none
  else none

/-- Embeds `ArbitrageTrader.should_act` (trader.py:410-413). -/
def arbitrageTraderShouldAct (minProfitThreshold : ℚ) :
    MarketData → Chain → AgentLocal → Bool × AgentLocal :=
  fun _ c s => ((findArbitrageOpportunity minProfitThreshold c s).isSome, s)

/-- Embeds `ArbitrageTrader.step` (trader.py:415-446): execute only the
first leg of the detected round trip. -/
def arbitrageTraderStep (minProfitThreshold : ℚ) :
    MarketData → Chain → AgentLocal → List ActionRec × Option String × Chain × AgentLocal :=
  fun _ c s =>
    match findArbitrageOpportunity minProfitThreshold c s with
    | none => ([], none, c, s)
    | some (amount, _, _) =>
      match executeSwap c s amount true with
      | (some _, c1, s1) => ([⟨"arbitrage_leg_1", amount⟩], none, c1, s1)
      | (none, c1, s1) => ([], none, c1, s1)

/-! ## Agent setup (run_simulation.py, `SimulationRunner._setup_agents`) -/

/-- One agent entry of the simulation configuration (the `agents` list of
the config file), carrying the per-type strategy parameters read by
`_setup_agents`. -/
inductive AgentSpec where
  | marketMaker
  | randomTrader (tradeFrequency : ℚ)
  | momentumTrader (lookbackPeriods : Nat) (momentumThreshold : ℚ)
  | arbitrageTrader (minProfitThreshold : ℚ)
  deriving Repr, DecidableEq

/-- The type tag used to build agent ids (`f"{agent_type}_{i}"`). -/
def AgentSpec.typeName : AgentSpec → String
  | .marketMaker => "market_maker"
  | .randomTrader _ => "random_trader"
  | .momentumTrader _ _ => "momentum_trader"
  | .arbitrageTrader _ => "arbitrage_trader"

/-- The simulation configuration consumed by `SimulationRunner`:
`random_seed`, `max_steps`, and the ordered agent list. -/
structure SimConfig where
  randomSeed : Nat
  maxSteps : Nat
  agents : List AgentSpec
  deriving Repr, DecidableEq

/-- The fresh local state of a newly constructed agent (balances are empty
until `_distribute_initial_tokens`; the nonce starts at the address's
transaction count, zero for a fresh account). -/
def initialLocal (seed : Nat) : AgentLocal :=
  { priceHistory := [], rng := seed, balanceA := 0, balanceB := 0, lpBalance := 0,
    initialReserves := none, counters := ⟨0, 0, 0⟩ }

/-- Embeds the construction of the `i`-th agent in
`SimulationRunner._setup_agents` (run_simulation.py:127-196): the id is
`f"{agent_type}_{i}"`, the random seed is `config.random_seed + i`, and the
strategy parameters come from the agent spec (`MarketMaker` uses its
defaults `target_ratio=0.5`, `rebalance_threshold=0.05`). -/
def mkAgent (randomSeed i : Nat) (spec : AgentSpec) : Agent :=
  let agentId := spec.typeName ++ "_" ++ toString i
  let localState := initialLocal (randomSeed + i)
  match spec with
  | .marketMaker =>
    { agentId := agentId, agentType := "market_maker", localState := localState
      shouldActF := marketMakerShouldAct (1 / 2) (1 / 20)
      stepF := marketMakerStep (1 / 2) (1 / 20) }
  | .randomTrader tradeFrequency =>
    { agentId := agentId, agentType := "random_trader", localState := localState
      shouldActF := randomTraderShouldAct tradeFrequency
      stepF := randomTraderStep }
  | .momentumTrader lookbackPeriods momentumThreshold =>
    { agentId := agentId, agentType := "momentum_trader", localState := localState
      shouldActF := momentumTraderShouldAct lookbackPeriods momentumThreshold (2 / 10)
      stepF := momentumTraderStep lookbackPeriods momentumThreshold }
  | .arbitrageTrader minProfitThreshold =>
    { agentId := agentId, agentType := "arbitrage_trader", localState := localState
      shouldActF := arbitrageTraderShouldAct minProfitThreshold
      stepF := arbitrageTraderStep minProfitThreshold }

/-- Embeds `SimulationRunner._setup_agents` (run_simulation.py:104-197):
agents are created in the order of the configuration's agent list
(registration order) with per-agent seeds `random_seed + i`. -/
def mkAgents (cfg : SimConfig) : List Agent :=
  cfg.agents.enum.map (fun p => mkAgent cfg.randomSeed p.1 p.2)

/-- Embeds `SimulationRunner._distribute_initial_tokens`
(run_simulation.py:199-257): every agent receives 10,000 TEST (18
decimals) and 10,000 USDC (6 decimals) before the first tick. -/
def distributeInitialTokens (agents : List Agent) : List Agent :=
  agents.map (fun a =>
    { a with localState :=
        { a.localState with
          balanceA := a.localState.balanceA + 10000 * 1000000000000000000
          balanceB := a.localState.balanceB + 10000 * 1000000 } })

/-- The full deterministic pipeline of `SimulationRunner.run_simulation`
for a given configuration and initial pool state: set up agents from the
config, distribute initial tokens, and run the tick loop with the
market-state reader. -/
def simulateFromConfig (cfg : SimConfig) (c : Chain) : Except String FinalReport :=
  runSimulation readMarketState none (distributeInitialTokens (mkAgents cfg)) c cfg.maxSteps

/-- The tick records of the full pipeline (the `step_results` list). -/
def stepResultsOf (cfg : SimConfig) (c : Chain) : List StepResult :=
  match runTicks readMarketState none 0 cfg.maxSteps (distributeInitialTokens (mkAgents cfg)) c with
  | .ok (results, _) => results
  | .error _ => []


/-! ## Theorems: pool math and agent-level computations -/

/-- Helper: ordering of natural-number floor divisions from the
cross-multiplied inequality of the exact quotients. -/
lemma nat_div_le_div_of_cross (n1 d1 n2 d2 : Nat) (h1 : 0 < d1) (h2 : 0 < d2)
    (h : n1 * d2 ≤ n2 * d1) : n1 / d1 ≤ n2 / d2 := by
  rw [Nat.le_div_iff_mul_le h2]
  have hh : n1 / d1 * d2 * d1 ≤ n2 * d1 := by
    calc n1 / d1 * d2 * d1 = n1 / d1 * d1 * d2 := by ring
    _ ≤ n1 * d2 := Nat.mul_le_mul_right _ (Nat.div_mul_le_self n1 d1)
    _ ≤ n2 * d1 := h
  exact Nat.le_of_mul_le_mul_right hh h1

/-- Helper: `int()` of an integer-valued rational. -/
lemma pyTrunc_intCast (n : ℤ) : pyTrunc (n : ℚ) = n := by
  simp [pyTrunc]

/-- C4. The swap-output quote `quoteOut` (the AMM `getAmountOut`, modelled
from the spec since `AMM.sol` is absent) fails with `InvalidReserves` when
either reserve is zero, and for reserves both positive it returns a value
that is monotonically increasing in `amountIn` and strictly less than
`reserveOut`. -/
theorem quoteOut_invalid_monotone_bounded (reserveIn reserveOut : Nat) :
    (∀ amountIn, reserveIn = 0 ∨ reserveOut = 0 →
      getAmountOut amountIn reserveIn reserveOut = .error "InvalidReserves")
    ∧ (0 < reserveIn → 0 < reserveOut → ∀ a1 a2 : Nat, a1 ≤ a2 →
        ∃ o1 o2, getAmountOut a1 reserveIn reserveOut = .ok o1
          ∧ getAmountOut a2 reserveIn reserveOut = .ok o2
          ∧ o1 ≤ o2 ∧ o1 < reserveOut ∧ o2 < reserveOut) := by
  constructor
  · intro amountIn h
    simp [getAmountOut, h]
  · intro hin hout a1 a2 h12
    have hne : ¬(reserveIn = 0 ∨ reserveOut = 0) := by omega
    have hd1 : 0 < reserveIn * 10000 + a1 * (10000 - feeBps) := by
      have := Nat.mul_pos hin (show 0 < 10000 by norm_num)
      omega
    have hd2 : 0 < reserveIn * 10000 + a2 * (10000 - feeBps) := by
      have := Nat.mul_pos hin (show 0 < 10000 by norm_num)
      omega
    refine ⟨a1 * (10000 - feeBps) * reserveOut / (reserveIn * 10000 + a1 * (10000 - feeBps)),
            a2 * (10000 - feeBps) * reserveOut / (reserveIn * 10000 + a2 * (10000 - feeBps)),
            by simp [getAmountOut, hne], by simp [getAmountOut, hne], ?_, ?_, ?_⟩
    · apply nat_div_le_div_of_cross _ _ _ _ hd1 hd2
      calc a1 * (10000 - feeBps) * reserveOut * (reserveIn * 10000 + a2 * (10000 - feeBps))
          = a1 * (10000 - feeBps) * reserveOut * (reserveIn * 10000)
            + a2 * (10000 - feeBps) * reserveOut * (a1 * (10000 - feeBps)) := by ring
        _ ≤ a2 * (10000 - feeBps) * reserveOut * (reserveIn * 10000)
            + a2 * (10000 - feeBps) * reserveOut * (a1 * (10000 - feeBps)) := by
            refine Nat.add_le_add_right (Nat.mul_le_mul_right _ ?_) _
            exact Nat.mul_le_mul_right _ (Nat.mul_le_mul_right _ h12)
        _ = a2 * (10000 - feeBps) * reserveOut * (reserveIn * 10000 + a1 * (10000 - feeBps)) := by
            ring
    · rw [Nat.div_lt_iff_lt_mul hd1]
      have hpos : 0 < reserveOut * (reserveIn * 10000) :=
        Nat.mul_pos hout (Nat.mul_pos hin (by norm_num))
      calc a1 * (10000 - feeBps) * reserveOut
          = reserveOut * (a1 * (10000 - feeBps)) := by ring
        _ < reserveOut * (reserveIn * 10000) + reserveOut * (a1 * (10000 - feeBps)) := by omega
        _ = reserveOut * (reserveIn * 10000 + a1 * (10000 - feeBps)) := by ring
    · rw [Nat.div_lt_iff_lt_mul hd2]
      have hpos : 0 < reserveOut * (reserveIn * 10000) :=
        Nat.mul_pos hout (Nat.mul_pos hin (by norm_num))
      calc a2 * (10000 - feeBps) * reserveOut
          = reserveOut * (a2 * (10000 - feeBps)) := by ring
        _ < reserveOut * (reserveIn * 10000) + reserveOut * (a2 * (10000 - feeBps)) := by omega
        _ = reserveOut * (reserveIn * 10000 + a2 * (10000 - feeBps)) := by ring

/-- Witness for C4 at concrete inputs. -/
theorem quoteOut_invalid_monotone_bounded_witness :
    getAmountOut 5 0 7 = .error "InvalidReserves"
    ∧ ∃ o1 o2, getAmountOut 10 100 100 = .ok o1 ∧ getAmountOut 20 100 100 = .ok o2
        ∧ o1 ≤ o2 ∧ o1 < 100 ∧ o2 < 100 :=
  ⟨(quoteOut_invalid_monotone_bounded 0 7).1 5 (Or.inl rfl),
   (quoteOut_invalid_monotone_bounded 100 100).2 (by decide) (by decide) 10 20 (by decide)⟩

/-- C6. Momentum: `calculate_momentum` on the price history
`[1.0, 1.0, 1.0, 1.0, 1.3]` with `lookback_periods = 5` is `0.3`
(`(newest − oldest) / oldest`), the insufficient-history and zero-oldest
cases return `0`, and with `momentum_threshold = 0.02` `should_act`
returns `true` — whatever the random draw — when the post-append history
is that list (the live pool `(13, 10)` has price `1.3` and the prior
history is `[1, 1, 1, 1]`). -/
theorem momentum_scenario :
    calculateMomentum 5 [1, 1, 1, 1, 13/10] = 3/10
    ∧ (∀ hist : List ℚ, hist.length < 5 → calculateMomentum 5 hist = 0)
    ∧ (∀ hist : List ℚ, (lastSlice 5 hist).headD 0 = 0 → calculateMomentum 5 hist = 0)
    ∧ ∀ (tradeFrequency : ℚ) (md : MarketData) (rng balA balB lp : Nat)
        (ir : Option (Nat × Nat)) (ctr : TxCounters),
        (momentumTraderShouldAct 5 (2/100) tradeFrequency md ⟨13, 10⟩
          ⟨[1, 1, 1, 1], rng, balA, balB, lp, ir, ctr⟩).1 = true := by
  refine ⟨?_, ?_, ?_, ?_⟩
  · norm_num [calculateMomentum, lastSlice, List.getLastD]
  · intro hist hlen
    simp [calculateMomentum, hlen]
  · intro hist hhead
    by_cases hlen : hist.length < 5
    · simp only [calculateMomentum]
      rw [if_pos hlen]
    · simp only [calculateMomentum]
      rw [if_neg hlen, if_pos hhead]
  · intro tradeFrequency md rng balA balB lp ir ctr
    have habs : |(3 : ℚ)/10| = 3/10 := abs_of_nonneg (by norm_num)
    simp only [momentumTraderShouldAct]
    norm_num [getPoolPrice, calculateMomentum, lastSlice, List.getLastD, habs]

/-- Witness for C6's conditional parts at concrete inputs. -/
theorem momentum_scenario_witness :
    calculateMomentum 5 [1, 1] = 0
    ∧ calculateMomentum 5 [0, 1, 1, 1, 1] = 0
    ∧ (momentumTraderShouldAct 5 (2/100) (2/10) ⟨100, 100, 1⟩ ⟨13, 10⟩
        ⟨[1, 1, 1, 1], 7, 0, 0, 0, none, ⟨0, 0, 0⟩⟩).1 = true :=
  ⟨momentum_scenario.2.1 [1, 1] (by norm_num),
   momentum_scenario.2.2.1 [0, 1, 1, 1, 1] (by norm_num [lastSlice]),
   momentum_scenario.2.2.2 (2/10) ⟨100, 100, 1⟩ 7 0 0 0 none ⟨0, 0, 0⟩⟩

/-- C7. Impermanent loss: zero when any reserve is zero (the
initial-ratio-zero case is subsumed by the zero-reserve guard), exactly
`0.0` when the current reserves equal the initial reserves, and otherwise
`2·√r/(1+r) − 1` with `r = (currentA/currentB)/(initialA/initialB)`. -/
theorem impermanent_loss_props (ia ib ca cb : Nat) :
    ((ia = 0 ∨ ib = 0 ∨ ca = 0 ∨ cb = 0) → calculateImpermanentLoss ia ib ca cb = 0)
    ∧ (ca = ia → cb = ib → calculateImpermanentLoss ia ib ca cb = 0)
    ∧ (ia ≠ 0 → ib ≠ 0 → ca ≠ 0 → cb ≠ 0 →
        calculateImpermanentLoss ia ib ca cb =
          2 * Real.sqrt (((ca : ℝ) / (cb : ℝ)) / ((ia : ℝ) / (ib : ℝ))) /
            (1 + ((ca : ℝ) / (cb : ℝ)) / ((ia : ℝ) / (ib : ℝ))) - 1) := by
  refine ⟨?_, ?_, ?_⟩
  · intro h
    simp only [calculateImpermanentLoss]
    rw [if_pos h]
  · intro hca hcb
    rw [hca, hcb]
    by_cases h : ia = 0 ∨ ib = 0 ∨ ia = 0 ∨ ib = 0
    · simp only [calculateImpermanentLoss]
      rw [if_pos h]
    · push_neg at h
      obtain ⟨hia, hib, -, -⟩ := h
      have hratio : (ia : ℝ) / (ib : ℝ) ≠ 0 :=
        div_ne_zero (Nat.cast_ne_zero.mpr hia) (Nat.cast_ne_zero.mpr hib)
      simp only [calculateImpermanentLoss]
      rw [if_neg (by tauto), if_neg hratio, div_self hratio, Real.sqrt_one]
      norm_num
  · intro hia hib hca hcb
    have hratio : (ia : ℝ) / (ib : ℝ) ≠ 0 :=
      div_ne_zero (Nat.cast_ne_zero.mpr hia) (Nat.cast_ne_zero.mpr hib)
    simp only [calculateImpermanentLoss]
    rw [if_neg (by tauto), if_neg hratio]

/-- Witness for C7 at concrete inputs: equal reserves give exactly zero,
and a zero reserve gives zero. -/
theorem impermanent_loss_props_witness :
    calculateImpermanentLoss 2 3 2 3 = 0 ∧ calculateImpermanentLoss 0 3 5 7 = 0 :=
  ⟨(impermanent_loss_props 2 3 2 3).2.1 rfl rfl,
   (impermanent_loss_props 0 3 5 7).1 (Or.inl rfl)⟩

/-- C8. Optimal liquidity amounts on an empty pool: in the scenario
`availableA = availableB = 1000`, `targetRatio = 0.5`,
`maxLiquidityRatio = 0.9` the result is `(900, 900)` — so
`amountA/amountB = 1` exactly, within any floating tolerance — and in
general, whenever either reserve is zero and the computation succeeds,
each returned amount is clamped to the corresponding availability. -/
theorem optimal_liquidity_empty_pool :
    (calculateOptimalLiquidityAmounts 0 0 1000 1000 (1/2) (9/10) = .ok (900, 900)
      ∧ (900 : ℚ) / 900 = 1)
    ∧ ∀ (ra rb a b : Nat) (t m : ℚ) (x y : ℤ), ra = 0 ∨ rb = 0 →
        calculateOptimalLiquidityAmounts ra rb a b t m = .ok (x, y) →
        x ≤ (a : ℤ) ∧ y ≤ (b : ℤ) := by
  constructor
  · constructor
    · simp only [calculateOptimalLiquidityAmounts]
      norm_num
      simp [pyTrunc]
    · norm_num
  · intro ra rb a b t m x y h0 hok
    simp only [calculateOptimalLiquidityAmounts] at hok
    rw [if_pos h0] at hok
    by_cases h1 : (1 - t) = 0
    · rw [if_pos h1] at hok
      exact absurd hok (by simp)
    · rw [if_neg h1] at hok
      by_cases h2 : t = 0
      · rw [if_pos h2] at hok
        exact absurd hok (by simp)
      · rw [if_neg h2] at hok
        simp only [Except.ok.injEq, Prod.mk.injEq] at hok
        obtain ⟨hx, hy⟩ := hok
        exact ⟨hx ▸ min_le_right _ _, hy ▸ min_le_right _ _⟩

/-- Witness for C8's clamping half at concrete inputs, reusing the
scenario equation. -/
theorem optimal_liquidity_empty_pool_witness :
    (900 : ℤ) ≤ ((1000 : Nat) : ℤ) ∧ (900 : ℤ) ≤ ((1000 : Nat) : ℤ) :=
  optimal_liquidity_empty_pool.2 0 0 1000 1000 (1/2) (9/10) 900 900 (Or.inl rfl)
    optimal_liquidity_empty_pool.1.1

/-- C9. Transaction accounting is atomic: `send_transaction` increments
`nonce`, `transaction_count` and `total_gas_used` exactly when a receipt
with nonzero status was obtained; on any failure (submission error,
timeout, or receipt status 0) it raises with all three counters
unchanged. -/
theorem send_transaction_atomic (st : TxCounters)
    (submitResult : Except String String) (receiptResult : Except String (Nat × Nat)) :
    (∀ e, (sendTransaction st submitResult receiptResult).1 = .error e →
        (sendTransaction st submitResult receiptResult).2 = st)
    ∧ ∀ h, (sendTransaction st submitResult receiptResult).1 = .ok h →
        ∃ status gasUsed, receiptResult = .ok (status, gasUsed) ∧ status ≠ 0
          ∧ submitResult = .ok h
          ∧ (sendTransaction st submitResult receiptResult).2 =
              ⟨st.nonce + 1, st.transactionCount + 1, st.totalGasUsed + gasUsed⟩ := by
  rcases submitResult with es | hs
  · exact ⟨fun e _ => rfl, fun h hh => by simp [sendTransaction] at hh⟩
  · rcases receiptResult with er | ⟨status, gas⟩
    · exact ⟨fun e _ => rfl, fun h hh => by simp [sendTransaction] at hh⟩
    · by_cases hst : status = 0
      · subst hst
        exact ⟨fun e _ => rfl, fun h hh => by simp [sendTransaction] at hh⟩
      · refine ⟨fun e he => ?_, fun h hh => ?_⟩
        · simp [sendTransaction, hst] at he
        · simp only [sendTransaction] at hh ⊢
          rw [if_neg hst] at hh ⊢
          exact ⟨status, gas, rfl, hst, by rw [Except.ok.inj hh], rfl⟩

/-- Witness for C9 at concrete inputs: a failed submission leaves the
counters unchanged; a confirmed receipt increments them. -/
theorem send_transaction_atomic_witness :
    (sendTransaction ⟨5, 2, 100⟩ (.error "rejected") (.ok (1, 30))).2 = ⟨5, 2, 100⟩
    ∧ ∃ status gasUsed, (Except.ok (1, 30) : Except String (Nat × Nat)) = .ok (status, gasUsed)
        ∧ status ≠ 0 ∧ (Except.ok "0xabc" : Except String String) = .ok "0xabc"
        ∧ (sendTransaction ⟨5, 2, 100⟩ (.ok "0xabc") (.ok (1, 30))).2 =
            ⟨5 + 1, 2 + 1, 100 + gasUsed⟩ :=
  ⟨(send_transaction_atomic ⟨5, 2, 100⟩ (.error "rejected") (.ok (1, 30))).1 "rejected" rfl,
   (send_transaction_atomic ⟨5, 2, 100⟩ (.ok "0xabc") (.ok (1, 30))).2 "0xabc" rfl⟩

/-- C10. At the ratio boundaries the empty-pool branch of
`calculate_optimal_liquidity_amounts` divides by zero: with either reserve
zero, the computation succeeds for every `0 < target_ratio < 1`, and
raises `ZeroDivisionError` at `target_ratio = 0` and at
`target_ratio = 1`. -/
theorem optimal_liquidity_ratio_boundaries (ra rb a b : Nat) (t m : ℚ)
    (h0 : ra = 0 ∨ rb = 0) :
    (0 < t → t < 1 → ∃ v, calculateOptimalLiquidityAmounts ra rb a b t m = .ok v)
    ∧ ((t = 0 ∨ t = 1) →
        calculateOptimalLiquidityAmounts ra rb a b t m = .error "ZeroDivisionError") := by
  constructor
  · intro ht0 ht1
    have h1 : (1 : ℚ) - t ≠ 0 := sub_ne_zero.mpr (ne_of_gt ht1)
    have h2 : t ≠ 0 := ne_of_gt ht0
    rcases hcalc : calculateOptimalLiquidityAmounts ra rb a b t m with e | v
    · exfalso
      simp only [calculateOptimalLiquidityAmounts] at hcalc
      rw [if_pos h0, if_neg h1, if_neg h2] at hcalc
      exact absurd hcalc (by simp)
    · exact ⟨v, rfl⟩
  · rintro (rfl | rfl)
    · simp only [calculateOptimalLiquidityAmounts]
      rw [if_pos h0]
      norm_num
    · simp only [calculateOptimalLiquidityAmounts]
      rw [if_pos h0]
      norm_num

/-- Witness for C10 at concrete inputs. -/
theorem optimal_liquidity_ratio_boundaries_witness :
    (∃ v, calculateOptimalLiquidityAmounts 0 0 1000 1000 (1/2) (9/10) = .ok v)
    ∧ calculateOptimalLiquidityAmounts 0 0 1000 1000 1 (9/10) = .error "ZeroDivisionError" :=
  ⟨(optimal_liquidity_ratio_boundaries 0 0 1000 1000 (1/2) (9/10) (Or.inl rfl)).1
      (by norm_num) (by norm_num),
   (optimal_liquidity_ratio_boundaries 0 0 1000 1000 1 (9/10) (Or.inl rfl)).2 (Or.inr rfl)⟩


/-! ## Theorems: scheduler -/

/-- Helper: with every agent's `should_act` firing, the tick's reports
carry the agents' ids in registration order, and a report's `error` field
is set exactly when its agent's `step` yields the error field — here
characterised by whether the agent's id is the designated failing id. -/
lemma agentsLoop_fault_aux (md : MarketData) (badId : String) :
    ∀ (l : List Agent) (c : Chain),
    (∀ b ∈ l, ∀ md' c' s, (b.shouldActF md' c' s).1 = true) →
    (∀ b ∈ l, ∀ md' c' s, ((b.stepF md' c' s).2.1).isSome = decide (b.agentId = badId)) →
    ((agentsLoop md l c).1.map Report.agentId = l.map Agent.agentId
     ∧ ∀ r ∈ (agentsLoop md l c).1, (r.error.isSome = true ↔ r.agentId = badId)) := by
  intro l
  induction l with
  | nil => intro c _ _; exact ⟨rfl, by simp [agentsLoop]⟩
  | cons a rest ih =>
    intro c hact hchar
    rcases hsa : a.shouldActF md c a.localState with ⟨act, s1⟩
    have hactT : act = true := by
      have := hact a (List.mem_cons_self a rest) md c a.localState
      rw [hsa] at this
      exact this
    subst hactT
    rcases hst : a.stepF md c s1 with ⟨acts, rest'⟩
    rcases rest' with ⟨err, c1, s2⟩
    have herr : err.isSome = decide (a.agentId = badId) := by
      have := hchar a (List.mem_cons_self a rest) md c s1
      rw [hst] at this
      exact this
    obtain ⟨ih1, ih2⟩ := ih c1 (fun b hb => hact b (List.mem_cons_of_mem a hb))
      (fun b hb => hchar b (List.mem_cons_of_mem a hb))
    constructor
    · simp only [agentsLoop, hsa, hst, if_true]
      simpa using ih1
    · intro r hr
      simp only [agentsLoop, hsa, hst, if_true] at hr
      rcases List.mem_cons.mp hr with hr | hr
      · subst hr
        rw [show (⟨a.agentId, a.agentType, acts, err⟩ : Report).error = err from rfl, herr]
        exact ⟨fun h => of_decide_eq_true h, fun h => decide_eq_true h⟩
      · exact ih2 r hr

/-- C1. Fault isolation per tick: with all agents acting, agent ids
pairwise distinct, agent `a`'s `step` always yielding the `error` field
(every strategy `step` converts an unexpected failure into that field
rather than raising), and every other agent's `step` yielding no error,
the tick's reports list one report per agent in registration order, the
`error` field is set exactly on agent `a`'s report, and agent `a`'s
errored report is present — the failing agent is neither dropped nor does
it abort the tick. -/
theorem tick_fault_isolation (pre post : List Agent) (a : Agent) (md : MarketData) (c : Chain)
    (hids : ((pre ++ a :: post).map Agent.agentId).Nodup)
    (hact : ∀ b ∈ pre ++ a :: post, ∀ md' c' s, (b.shouldActF md' c' s).1 = true)
    (hfail : ∀ md' c' s, ((a.stepF md' c' s).2.1).isSome = true)
    (hok : ∀ b ∈ pre ++ post, ∀ md' c' s, (b.stepF md' c' s).2.1 = none) :
    (agentsLoop md (pre ++ a :: post) c).1.map Report.agentId
        = (pre ++ a :: post).map Agent.agentId
    ∧ (∀ r ∈ (agentsLoop md (pre ++ a :: post) c).1,
        (r.error.isSome = true ↔ r.agentId = a.agentId))
    ∧ ∃ r ∈ (agentsLoop md (pre ++ a :: post) c).1,
        r.agentId = a.agentId ∧ r.error.isSome = true := by
  have hdisj : ∀ b ∈ pre ++ post, b.agentId ≠ a.agentId := by
    intro b hb
    rw [List.map_append, List.map_cons] at hids
    obtain ⟨h1, h2, hdj⟩ := List.nodup_append.mp hids
    rcases List.mem_append.mp hb with hb | hb
    · intro heq
      exact (hdj (List.mem_map_of_mem Agent.agentId hb)) (heq ▸ List.mem_cons_self _ _)
    · intro heq
      exact (List.nodup_cons.mp h2).1 (heq ▸ List.mem_map_of_mem Agent.agentId hb)
  have hchar : ∀ b ∈ pre ++ a :: post, ∀ md' c' s,
      ((b.stepF md' c' s).2.1).isSome = decide (b.agentId = a.agentId) := by
    intro b hb md' c' s
    rcases List.mem_append.mp hb with hb | hb
    · have hne := hdisj b (List.mem_append.mpr (Or.inl hb))
      rw [hok b (List.mem_append.mpr (Or.inl hb)) md' c' s]
      simp [hne]
    · rcases List.mem_cons.mp hb with rfl | hb
      · rw [hfail md' c' s]
        simp
      · have hne := hdisj b (List.mem_append.mpr (Or.inr hb))
        rw [hok b (List.mem_append.mpr (Or.inr hb)) md' c' s]
        simp [hne]
  obtain ⟨h1, h2⟩ := agentsLoop_fault_aux md a.agentId (pre ++ a :: post) c hact hchar
  refine ⟨h1, h2, ?_⟩
  have hmem : a.agentId ∈ (agentsLoop md (pre ++ a :: post) c).1.map Report.agentId := by
    rw [h1]
    exact List.mem_map_of_mem Agent.agentId (List.mem_append.mpr (Or.inr (List.mem_cons_self _ _)))
  obtain ⟨r, hr, hrid⟩ := List.mem_map.mp hmem
  exact ⟨r, hr, hrid, (h2 r hr).mpr hrid⟩

/-- An always-acting agent whose `step` performs no action and reports no
error (used as a concrete sibling in witnesses). -/
def alwaysActAgent (agentId : String) : Agent :=
  { agentId := agentId, agentType := "test_agent", localState := initialLocal 0,
    shouldActF := fun _ _ s => (true, s),
    stepF := fun _ c s => ([], none, c, s) }

/-- An always-acting agent whose `step` always records a failure in its
report's `error` field (as the strategy `step` methods do on an unexpected
failure). -/
def alwaysFailAgent (agentId : String) : Agent :=
  { agentId := agentId, agentType := "test_agent", localState := initialLocal 0,
    shouldActF := fun _ _ s => (true, s),
    stepF := fun _ c s => ([], some "unexpected failure", c, s) }

/-- Witness for C1 at a concrete tick: three agents, the middle one
failing. -/
theorem tick_fault_isolation_witness :
    (agentsLoop (marketOf ⟨100, 100⟩)
        ([alwaysActAgent "g1"] ++ alwaysFailAgent "bad" :: [alwaysActAgent "g2"])
        ⟨100, 100⟩).1.map Report.agentId
      = ([alwaysActAgent "g1"] ++ alwaysFailAgent "bad" :: [alwaysActAgent "g2"]).map Agent.agentId
    ∧ (∀ r ∈ (agentsLoop (marketOf ⟨100, 100⟩)
          ([alwaysActAgent "g1"] ++ alwaysFailAgent "bad" :: [alwaysActAgent "g2"])
          ⟨100, 100⟩).1,
        (r.error.isSome = true ↔ r.agentId = (alwaysFailAgent "bad").agentId))
    ∧ ∃ r ∈ (agentsLoop (marketOf ⟨100, 100⟩)
          ([alwaysActAgent "g1"] ++ alwaysFailAgent "bad" :: [alwaysActAgent "g2"])
          ⟨100, 100⟩).1,
        r.agentId = (alwaysFailAgent "bad").agentId ∧ r.error.isSome = true :=
  tick_fault_isolation [alwaysActAgent "g1"] [alwaysActAgent "g2"] (alwaysFailAgent "bad")
    (marketOf ⟨100, 100⟩) ⟨100, 100⟩
    (by simp [alwaysActAgent, alwaysFailAgent])
    (by intro b hb md' c' s; fin_cases hb <;> rfl)
    (fun md' c' s => rfl)
    (by intro b hb md' c' s; fin_cases hb <;> rfl)


/-- A concrete always-acting trader that swaps 10 units of token A through
the pool (via `executeSwap`, mutating the live reserves), for exercising
intra-tick ordering. -/
def c2SwapAgent : Agent :=
  { agentId := "random_trader_0", agentType := "random_trader",
    localState := { initialLocal 0 with balanceA := 100000 },
    shouldActF := fun _ _ s => (true, s),
    stepF := fun _ c s =>
      match executeSwap c s 10 true with
      | (some _, c1, s1) => ([⟨"random_swap", 10⟩], none, c1, s1)
      | (none, c1, s1) => ([], none, c1, s1) }

/-- A concrete momentum trader with the code's `should_act` (which reads
the live pool price) and `step`. -/
def c2MomentumAgent : Agent :=
  { agentId := "momentum_trader_1", agentType := "momentum_trader",
    localState := initialLocal 1,
    shouldActF := momentumTraderShouldAct 5 (2/100) (2/10),
    stepF := momentumTraderStep 5 (2/100) }

/-- Counterexample to C2 as stated: on the pool `(100, 100)` the tick
snapshot's price is `1`, but after the first agent's swap executes, the
second agent's decision logic — `MomentumTrader.should_act`, which calls
`get_pool_price()` against the live contract rather than using the shared
snapshot — records the price `110/91 ≠ 1` in its history: an agent's
decision logic does observe pool state differing from the tick snapshot
because of a sibling's mutation within the same tick. -/
theorem snapshot_isolation_counterexample :
    ((agentsLoop (marketOf ⟨100, 100⟩) [c2SwapAgent, c2MomentumAgent] ⟨100, 100⟩).2.2.map
        (fun a => a.localState.priceHistory)) = [[], [110/91]]
    ∧ (marketOf ⟨100, 100⟩).price = 1
    ∧ ¬((110 : ℚ)/91 = 1) := by
  refine ⟨?_, by norm_num [marketOf], by norm_num⟩
  have hswap : getAmountOut 10 100 100 = .ok 9 := by
    simp only [getAmountOut, feeBps]
    norm_num
  have hr : ¬(rngFloat (rngNext 1) < 1/5) := by norm_num [rngFloat, rngNext]
  simp only [agentsLoop, c2SwapAgent, c2MomentumAgent, executeSwap, calculateSwapOutput,
    applySwap, initialLocal, momentumTraderShouldAct, getPoolPrice, calculateMomentum,
    lastSlice, hswap]
  norm_num [hr]

/-- C2 amended: the scheduler does perform a single market read per tick
and hands that one snapshot to every agent — the instrumented loop records
the identical snapshot for each registered agent, and it is the same
computation as the actual loop — even though agents' own live reads can
diverge from it (see the counterexample). -/
theorem single_snapshot_shared (md : MarketData) :
    ∀ (l : List Agent) (c : Chain),
    (agentsLoopSnap md l c).2.2.2 = List.replicate l.length md
    ∧ (agentsLoopSnap md l c).1 = (agentsLoop md l c).1
    ∧ (agentsLoopSnap md l c).2.1 = (agentsLoop md l c).2.1
    ∧ (agentsLoopSnap md l c).2.2.1 = (agentsLoop md l c).2.2 := by
  intro l
  induction l with
  | nil => intro c; exact ⟨rfl, rfl, rfl, rfl⟩
  | cons a rest ih =>
    intro c
    rcases hsa : a.shouldActF md c a.localState with ⟨act, s1⟩
    rcases act with _ | _
    · obtain ⟨ih1, ih2, ih3, ih4⟩ := ih c
      simp only [agentsLoopSnap, agentsLoop, hsa, List.length_cons, List.replicate, if_false,
        Bool.false_eq_true]
      exact ⟨by rw [ih1], by rw [ih2], by rw [ih3], by rw [ih4]⟩
    · rcases hst : a.stepF md c s1 with ⟨acts, rest'⟩
      rcases rest' with ⟨err, c1, s2⟩
      obtain ⟨ih1, ih2, ih3, ih4⟩ := ih c1
      simp only [agentsLoopSnap, agentsLoop, hsa, hst, List.length_cons, List.replicate, if_true]
      exact ⟨by rw [ih1], by rw [ih2], by rw [ih3], by rw [ih4]⟩


/-- A market-state reader whose ledger read fails (`SnapshotUnavailable`,
spec §7). -/
def failingRead : Chain → Except String MarketData := fun _ => .error "SnapshotUnavailable"

/-- Counterexample to C3 as stated: a run that is not cancelled at the
process level but whose tick-0 market read fails does not return a final
report — `run_simulation`'s handler for generic exceptions re-raises
(`except Exception: raise`, run_simulation.py:350-352) instead of
producing the report. -/
theorem run_report_counterexample :
    runSimulation failingRead none [alwaysActAgent "market_maker_0"] ⟨100, 100⟩ 1
      = .error "SnapshotUnavailable" := rfl

/-- Helper: when every market read succeeds, the tick loop never errors. -/
lemma runTicks_total (readM : Chain → Except String MarketData)
    (h : ∀ c, ∃ md, readM c = .ok md) (interruptAt : Option Nat) :
    ∀ (n step : Nat) (agents : List Agent) (c : Chain),
    ∃ out, runTicks readM interruptAt step n agents c = .ok out := by
  intro n
  induction n with
  | zero => intro step agents c; exact ⟨_, rfl⟩
  | succ n ih =>
    intro step agents c
    by_cases hi : interruptAt = some step
    · exact ⟨([], agents), by simp [runTicks, hi]⟩
    · obtain ⟨md, hmd⟩ := h c
      rcases hal : agentsLoop md agents c with ⟨reports, c1, agents1⟩
      obtain ⟨out, hout⟩ := ih (step + 1) agents1 c1
      refine ⟨(⟨step, md, reports, calculateStepMetrics step reports md⟩ :: out.1, out.2), ?_⟩
      simp [runTicks, hi, runStep, hmd, hal, hout]

/-- C3 amended: whenever every tick's market read succeeds, the run —
interrupted at a tick boundary or not — always returns a final report, no
matter what the agents do (every per-agent failure is recorded in its
report and never escapes); but an exception escaping a tick, such as a
failed market read, aborts the run with no final report (see the
counterexample). -/
theorem run_always_reports (readM : Chain → Except String MarketData)
    (h : ∀ c, ∃ md, readM c = .ok md) (interruptAt : Option Nat)
    (agents : List Agent) (c : Chain) (maxSteps : Nat) :
    ∃ rep, runSimulation readM interruptAt agents c maxSteps = .ok rep := by
  obtain ⟨⟨results, agentsF⟩, hrt⟩ := runTicks_total readM h interruptAt maxSteps 0 agents c
  exact ⟨generateFinalReport results agentsF, by simp [runSimulation, hrt]⟩

/-- Witness for C3's amended theorem: a run whose only agent errors on
every tick still returns a final report. -/
theorem run_always_reports_witness :
    ∃ rep, runSimulation readMarketState none [alwaysFailAgent "agent_0"] ⟨100, 100⟩ 2
      = .ok rep :=
  run_always_reports readMarketState (fun c => ⟨marketOf c, rfl⟩) none
    [alwaysFailAgent "agent_0"] ⟨100, 100⟩ 2

/-! ## Theorems: determinism and iteration order (C5) -/

/-- Helper: the ids of each tick's reports form a sublist (in order) of
the registered agents' ids — agents are iterated in registration order and
each acting agent contributes exactly one report at its position. -/
lemma agentsLoop_reports_sublist (md : MarketData) :
    ∀ (l : List Agent) (c : Chain),
    ((agentsLoop md l c).1.map Report.agentId).Sublist (l.map Agent.agentId) := by
  intro l
  induction l with
  | nil => intro c; simp [agentsLoop]
  | cons a rest ih =>
    intro c
    rcases hsa : a.shouldActF md c a.localState with ⟨act, s1⟩
    rcases act with _ | _
    · simp only [agentsLoop, hsa, if_false, Bool.false_eq_true, List.map_cons]
      exact (ih c).cons _
    · rcases hst : a.stepF md c s1 with ⟨acts, rest'⟩
      rcases rest' with ⟨err, c1, s2⟩
      simp only [agentsLoop, hsa, hst, if_true, List.map_cons]
      exact (ih c1).cons₂ _

/-- Helper: the agent registry keeps its ids (in order) across a tick. -/
lemma agentsLoop_registry_ids (md : MarketData) :
    ∀ (l : List Agent) (c : Chain),
    (agentsLoop md l c).2.2.map Agent.agentId = l.map Agent.agentId := by
  intro l
  induction l with
  | nil => intro c; rfl
  | cons a rest ih =>
    intro c
    rcases hsa : a.shouldActF md c a.localState with ⟨act, s1⟩
    rcases act with _ | _
    · simp only [agentsLoop, hsa, if_false, Bool.false_eq_true, List.map_cons]
      rw [ih c]
    · rcases hst : a.stepF md c s1 with ⟨acts, rest'⟩
      rcases rest' with ⟨err, c1, s2⟩
      simp only [agentsLoop, hsa, hst, if_true, List.map_cons]
      rw [ih c1]

/-- Helper: across the whole tick loop, every tick's report ids are a
sublist of the initial registry's ids. -/
lemma runTicks_reports_order (readM : Chain → Except String MarketData)
    (interruptAt : Option Nat) :
    ∀ (n step : Nat) (l : List Agent) (c : Chain) (results : List StepResult)
      (agentsF : List Agent),
    runTicks readM interruptAt step n l c = .ok (results, agentsF) →
    (∀ sr ∈ results, (sr.reports.map Report.agentId).Sublist (l.map Agent.agentId))
    ∧ agentsF.map Agent.agentId = l.map Agent.agentId := by
  intro n
  induction n with
  | zero =>
    intro step l c results agentsF hrun
    simp only [runTicks, Except.ok.injEq] at hrun
    obtain ⟨h1, h2⟩ := Prod.mk.injEq _ _ _ _ ▸ hrun
    subst h1; subst h2
    exact ⟨by simp, rfl⟩
  | succ n ih =>
    intro step l c results agentsF hrun
    simp only [runTicks] at hrun
    by_cases hi : interruptAt = some step
    · rw [if_pos hi] at hrun
      simp only [Except.ok.injEq] at hrun
      obtain ⟨h1, h2⟩ := Prod.mk.injEq _ _ _ _ ▸ hrun
      subst h1; subst h2
      exact ⟨by simp, rfl⟩
    · rw [if_neg hi] at hrun
      rcases hmd : readM c with e | md
      · simp [runStep, hmd] at hrun
      · rcases hal : agentsLoop md l c with ⟨reports, c1, agents1⟩
        simp only [runStep, hmd, hal] at hrun
        rcases hrest : runTicks readM interruptAt (step + 1) n agents1 c1 with e | ⟨rest, agentsF'⟩
        · rw [hrest] at hrun
          simp at hrun
        · rw [hrest] at hrun
          simp only [Except.ok.injEq, Prod.mk.injEq] at hrun
          obtain ⟨h1, h2⟩ := hrun
          subst h1; subst h2
          obtain ⟨ihr, ihids⟩ := ih (step + 1) agents1 c1 rest agentsF' hrest
          have hreg : agents1.map Agent.agentId = l.map Agent.agentId := by
            have := agentsLoop_registry_ids md l c
            rw [hal] at this
            exact this
          constructor
          · intro sr hsr
            rcases List.mem_cons.mp hsr with rfl | hsr
            · have := agentsLoop_reports_sublist md l c
              rw [hal] at this
              exact this
            · exact (hreg ▸ ihr sr hsr)
          · rw [ihids, hreg]


/-- Helper: distributing initial tokens changes no agent id. -/
lemma distributeInitialTokens_ids (agents : List Agent) :
    (distributeInitialTokens agents).map Agent.agentId = agents.map Agent.agentId := by
  simp [distributeInitialTokens]

/-- C5. Determinism and fixed iteration order: two runs built from
identical configurations (same agent specs and `random_seed`, hence the
same per-agent seeds `random_seed + i`) and identical initial pool state
produce identical step-metrics sequences, identical per-tick agent-action
orderings, and identical final reports; and within every tick the reports
follow the fixed registration order — their agent ids are an in-order
sublist of the registry's ids. -/
theorem simulation_deterministic_ordered (cfg cfg' : SimConfig) (c c' : Chain)
    (hcfg : cfg = cfg') (hc : c = c') :
    (stepResultsOf cfg c).map StepResult.stepMetrics
        = (stepResultsOf cfg' c').map StepResult.stepMetrics
    ∧ (stepResultsOf cfg c).map (fun sr => sr.reports.map Report.agentId)
        = (stepResultsOf cfg' c').map (fun sr => sr.reports.map Report.agentId)
    ∧ simulateFromConfig cfg c = simulateFromConfig cfg' c'
    ∧ ∀ sr ∈ stepResultsOf cfg c,
        (sr.reports.map Report.agentId).Sublist ((mkAgents cfg).map Agent.agentId) := by
  subst hcfg; subst hc
  refine ⟨rfl, rfl, rfl, ?_⟩
  intro sr hsr
  unfold stepResultsOf at hsr
  rcases hrun : runTicks readMarketState none 0 cfg.maxSteps
      (distributeInitialTokens (mkAgents cfg)) c with e | ⟨results, agentsF⟩
  · rw [hrun] at hsr
    simp at hsr
  · rw [hrun] at hsr
    obtain ⟨horder, -⟩ := runTicks_reports_order readMarketState none cfg.maxSteps 0
      (distributeInitialTokens (mkAgents cfg)) c results agentsF hrun
    exact (distributeInitialTokens_ids (mkAgents cfg)) ▸ horder sr hsr

/-- A concrete two-agent configuration for the determinism witness. -/
def c5Config : SimConfig :=
  { randomSeed := 42, maxSteps := 2,
    agents := [.marketMaker, .randomTrader (2/10)] }

/-- Witness for C5 at a concrete configuration and pool state. -/
theorem simulation_deterministic_ordered_witness :
    (stepResultsOf c5Config ⟨1000000, 1000000⟩).map StepResult.stepMetrics
        = (stepResultsOf c5Config ⟨1000000, 1000000⟩).map StepResult.stepMetrics
    ∧ (stepResultsOf c5Config ⟨1000000, 1000000⟩).map (fun sr => sr.reports.map Report.agentId)
        = (stepResultsOf c5Config ⟨1000000, 1000000⟩).map (fun sr => sr.reports.map Report.agentId)
    ∧ simulateFromConfig c5Config ⟨1000000, 1000000⟩
        = simulateFromConfig c5Config ⟨1000000, 1000000⟩
    ∧ ∀ sr ∈ stepResultsOf c5Config ⟨1000000, 1000000⟩,
        (sr.reports.map Report.agentId).Sublist ((mkAgents c5Config).map Agent.agentId) :=
  simulation_deterministic_ordered c5Config c5Config ⟨1000000, 1000000⟩ ⟨1000000, 1000000⟩
    rfl rfl

end Simulate
